import Mathlib

/-!
Verification of the epiweek repository: a shallow embedding of the CDC
epidemiological-week calendar engine described by the specification, and of
the pure logic of the comparison script `scripts/compare_epiweeks.py`.

Dates are modelled two ways, kept in exact correspondence:
* `CalendarDate`, a (year, month, day) triple in the proleptic Gregorian
  calendar, as in the specification's data model;
* a rata-die day number (`Int`, day 0 = 1970-01-01), used internally for
  week arithmetic.
`toRataDie` and `fromRataDie` convert between the two; `fromRataDie` is the
standard era / century / quadrennium decomposition of the 400-year Gregorian
cycle.
-/

structure CalendarDate where
  year : Int
  month : Int
  day : Int
deriving DecidableEq, Repr

structure EpiWeek where
  epiyear : Int
  week : Int
deriving DecidableEq, Repr

/-- Shifted year of the internal civil reckoning: January and February are
counted as months 10 and 11 of the previous year, so every internal year
starts in March and ends with a possible leap day. -/
def civilYear (cd : CalendarDate) : Int :=
  if cd.month ≤ 2 then cd.year - 1 else cd.year

/-- Index of the 400-year era holding the (shifted) year. -/
def civilEra (cd : CalendarDate) : Int := civilYear cd / 400

/-- Year of era, in `[0, 399]`. -/
def civilYoe (cd : CalendarDate) : Int := civilYear cd - civilEra cd * 400

/-- March-based month index, in `[0, 11]` for valid months. -/
def civilMp (cd : CalendarDate) : Int :=
  if cd.month ≤ 2 then cd.month + 9 else cd.month - 3

/-- March-based day of year; `(153 * mp + 2) / 5` is the number of days in
the months preceding month `mp`. -/
def civilDoy (cd : CalendarDate) : Int := (153 * civilMp cd + 2) / 5 + cd.day - 1

/-- Day of the 400-year era, in `[0, 146096]` for valid dates. -/
def civilDoe (cd : CalendarDate) : Int :=
  civilYoe cd * 365 + civilYoe cd / 4 - civilYoe cd / 100 + civilDoy cd

/-- Day number of a Gregorian calendar date (day 0 = 1970-01-01). -/
def toRataDie (cd : CalendarDate) : Int :=
  civilEra cd * 146097 + civilDoe cd - 719468

/-- Era of a day number (eras of 146097 days, aligned to day -719468). -/
def rdEra (z : Int) : Int := (z + 719468) / 146097

/-- Day of era of a day number, in `[0, 146096]`. -/
def rdDoe (z : Int) : Int := z + 719468 - rdEra z * 146097

/-- Century of the era, in `[0, 3]`: the first three centuries have 36524
days, the last has 36525. -/
def rdC (z : Int) : Int := (4 * rdDoe z + 3) / 146097

/-- Day of century, in `[0, 36524]`. -/
def rdDoc (z : Int) : Int := rdDoe z - 36524 * rdC z

/-- Quadrennium within the century, in `[0, 24]`: full quadrennia have 1461
days, and only the last century of an era has a full final quadrennium. -/
def rdQ (z : Int) : Int := rdDoc z / 1461

/-- Day of quadrennium, in `[0, 1460]`. -/
def rdDoq (z : Int) : Int := rdDoc z - 1461 * rdQ z

/-- Year within the quadrennium, in `[0, 3]`: three 365-day years, then a
possible leap year. -/
def rdYiq (z : Int) : Int := (4 * rdDoq z + 3) / 1461

/-- March-based day of year, in `[0, 365]`. -/
def rdDoy (z : Int) : Int := rdDoq z - 365 * rdYiq z

/-- Year of era, in `[0, 399]`. -/
def rdYoe (z : Int) : Int := 100 * rdC z + 4 * rdQ z + rdYiq z

/-- March-based month index of a day number, in `[0, 11]`. -/
def rdMp (z : Int) : Int := (5 * rdDoy z + 2) / 153

/-- Day of month of a day number, in `[1, 31]`. -/
def rdDay (z : Int) : Int := rdDoy z - (153 * rdMp z + 2) / 5 + 1

/-- Calendar month of a day number, in `[1, 12]`. -/
def rdMonth (z : Int) : Int := if rdMp z < 10 then rdMp z + 3 else rdMp z - 9

/-- Gregorian calendar date of a day number: decompose the day of the
400-year era into century, quadrennium and year, then read the month and
day off the March-based day of year. -/
def fromRataDie (z : Int) : CalendarDate :=
  if rdMonth z ≤ 2 then
    ⟨rdEra z * 400 + rdYoe z + 1, rdMonth z, rdDay z⟩
  else
    ⟨rdEra z * 400 + rdYoe z, rdMonth z, rdDay z⟩

/-- Day of week of a day number, with Sunday = 0 (day 0 = 1970-01-01 was a
Thursday). -/
def dow (z : Int) : Int := (z + 4) % 7

/-- Day number of January 1 of a Gregorian year. -/
def jan1 (y : Int) : Int := toRataDie ⟨y, 1, 1⟩

/-- Day number of the first Wednesday of a Gregorian year. -/
def firstWednesday (y : Int) : Int := jan1 y + (3 - dow (jan1 y)) % 7

/-- Modelled from the spec (the calendar engine itself is not part of the
repository sources): the Sunday starting week 1 of an epiyear, i.e. the
Sunday of the week containing the year's first Wednesday — equivalently of
the Sunday-starting week holding at least four days of the calendar year. -/
def week1Start (y : Int) : Int := firstWednesday y - 3

/-- Modelled from the spec: number of epidemiological weeks in an epiyear,
the number of whole 7-day windows between the week-1 Sundays of consecutive
years. -/
def weeksInYear (y : Int) : Int := (week1Start (y + 1) - week1Start y) / 7

/-- Day number of the Sunday starting a given epiweek. -/
def epiweekStartRD (ew : EpiWeek) : Int :=
  week1Start ew.epiyear + (ew.week - 1) * 7

inductive EpiweekError where
  | invalidEpiweek
deriving DecidableEq, Repr

/-- Modelled from the spec: start and end dates of an epiweek; weeks outside
`[1, weeksInYear epiyear]` fail with `InvalidEpiweek`. -/
def epiweekToDateRange (ew : EpiWeek) : Except EpiweekError (CalendarDate × CalendarDate) :=
  if 1 ≤ ew.week ∧ ew.week ≤ weeksInYear ew.epiyear then
    Except.ok (fromRataDie (epiweekStartRD ew), fromRataDie (epiweekStartRD ew + 6))
  else
    Except.error EpiweekError.invalidEpiweek

/-- Modelled from the spec: the epiweek containing a calendar date, found by
comparing its week's Sunday with the week-1 Sundays of the date's calendar
year and of its neighbours. -/
def dateToEpiweek (cd : CalendarDate) : EpiWeek :=
  let z := toRataDie cd
  let s := z - dow z
  if s < week1Start cd.year then
    ⟨cd.year - 1, (s - week1Start (cd.year - 1)) / 7 + 1⟩
  else if week1Start (cd.year + 1) ≤ s then
    ⟨cd.year + 1, (s - week1Start (cd.year + 1)) / 7 + 1⟩
  else
    ⟨cd.year, (s - week1Start cd.year) / 7 + 1⟩

/-- Distinct epiweeks labelled with epiyear `y` among the epiweeks of all
calendar dates of the calendar year `y`. -/
def epiweeksOfYear (y : Int) : Finset EpiWeek :=
  ((Finset.Icc (jan1 y) (jan1 (y + 1) - 1)).image
    (fun z => dateToEpiweek (fromRataDie z))).filter (fun ew => ew.epiyear = y)

/-!
Embedding of the pure logic of `scripts/compare_epiweeks.py`.
-/

/-- Result record built by each comparison in `compare_epiweeks.py`. -/
structure ComparisonResult where
  test_name : String
  passed : Bool
  details : String

/-- Aggregation loop of `main`: `all_passed` starts `True` and is set to
`False` whenever a result did not pass. -/
def allPassed (results : List ComparisonResult) : Bool :=
  results.foldl (fun acc r => if r.passed then acc else false) true

/-- Exit code chosen by `main`: `sys.exit(0)` when every comparison passed,
`sys.exit(1)` otherwise. -/
def mainExitCode (results : List ComparisonResult) : Nat :=
  if allPassed results then 0 else 1

/-- Contents of `mmwr_results.json` as loaded by the script: both tables map
string keys to values, and a lookup may miss. -/
structure TsResults where
  epiweekToDate : String → Option String
  weeksInYear : String → Option Int

/-- Rendering of Python's `f-string` field `{nweeks:02d}` for the values the
script can produce. -/
def pad2 (n : Int) : String :=
  if 0 ≤ n ∧ n < 10 then "0" ++ toString n else toString n

/-- Week count used by `compare_epiweek_to_date` for a year:
`ts_results["weeksInYear"].get(str(year), 52)`. -/
def nweeksUsed (ts : TsResults) (year : Int) : Int :=
  (ts.weeksInYear (toString year)).getD 52

/-- Key built by `compare_epiweek_to_date` for the last week's end date:
`f"{year}{nweeks:02d}_end"`. -/
def endDateKey (ts : TsResults) (year : Int) : String :=
  toString year ++ (pad2 (nweeksUsed ts year) ++ "_end")

/-- Lookup performed by `compare_epiweek_to_date` for the last week's end
date: `ts_results["epiweekToDate"].get(f"{year}{nweeks:02d}_end")`. -/
def tsEndLookup (ts : TsResults) (year : Int) : Option String :=
  ts.epiweekToDate (endDateKey ts year)

/-- A loaded result table with no entries at all. -/
def tsEmpty : TsResults :=
  { epiweekToDate := fun _ => none, weeksInYear := fun _ => none }

/-!
Arithmetic facts about the civil-calendar conversions.
-/

/-- Decomposition of a day of era into century, quadrennium, year and day of
year: the reassembled year of era and day of year are in range and account
for the day of era exactly. -/
theorem doe_decomp (doe c doc q doq yiq doy yoe : Int)
    (h0 : 0 ≤ doe) (h1 : doe ≤ 146096)
    (hc : c = (4 * doe + 3) / 146097)
    (hdoc : doc = doe - 36524 * c)
    (hq : q = doc / 1461)
    (hdoq : doq = doc - 1461 * q)
    (hyiq : yiq = (4 * doq + 3) / 1461)
    (hdoy : doy = doq - 365 * yiq)
    (hyoe : yoe = 100 * c + 4 * q + yiq) :
    0 ≤ yoe ∧ yoe ≤ 399 ∧ 0 ≤ doy ∧ doy ≤ 365 ∧
    365 * yoe + yoe / 4 - yoe / 100 + doy = doe := by
  have hc1 : 0 ≤ c ∧ c ≤ 3 ∧ 36524 * c ≤ doe ∧
      (c ≤ 2 → doe - 36524 * c ≤ 36523) ∧ doe - 36524 * c ≤ 36524 := by omega
  have hq1 : 0 ≤ q ∧ q ≤ 24 ∧ 0 ≤ doq ∧ doq ≤ 1460 ∧
      (q = 24 → c ≤ 2 → doq ≤ 1459) := by omega
  have hy1 : 0 ≤ yiq ∧ yiq ≤ 3 ∧ 0 ≤ doy ∧ doy ≤ 365 ∧
      (yiq ≤ 2 → doy ≤ 364) := by omega
  have h4 : yoe / 4 = 25 * c + q := by omega
  have h100 : yoe / 100 = c := by omega
  omega

/-- Range and reassembly facts for the components of `fromRataDie`. -/
theorem rd_components (z : Int) :
    0 ≤ rdYoe z ∧ rdYoe z ≤ 399 ∧ 0 ≤ rdDoy z ∧ rdDoy z ≤ 365 ∧
    365 * rdYoe z + rdYoe z / 4 - rdYoe z / 100 + rdDoy z = rdDoe z ∧
    z = rdEra z * 146097 + rdDoe z - 719468 := by
  have hera : rdEra z = (z + 719468) / 146097 := rfl
  have hdoe : rdDoe z = z + 719468 - rdEra z * 146097 := rfl
  have h0 : 0 ≤ rdDoe z := by omega
  have h1 : rdDoe z ≤ 146096 := by omega
  have h := doe_decomp (rdDoe z) (rdC z) (rdDoc z) (rdQ z) (rdDoq z) (rdYiq z)
    (rdDoy z) (rdYoe z) h0 h1 rfl rfl rfl rfl rfl rfl rfl
  exact ⟨h.1, h.2.1, h.2.2.1, h.2.2.2.1, h.2.2.2.2, by omega⟩

/-- Value of `toRataDie` on a date with month at most 2. -/
theorem toRataDie_month_le (y m d : Int) (h : m ≤ 2) :
    toRataDie ⟨y, m, d⟩ =
      (y - 1) / 400 * 146097
      + ((y - 1) - (y - 1) / 400 * 400) * 365
      + ((y - 1) - (y - 1) / 400 * 400) / 4
      - ((y - 1) - (y - 1) / 400 * 400) / 100
      + ((153 * (m + 9) + 2) / 5 + d - 1) - 719468 := by
  simp only [toRataDie, civilEra, civilDoe, civilYoe, civilDoy, civilMp, civilYear]
  simp only [h, if_pos]
  ring

/-- Value of `toRataDie` on a date with month at least 3. -/
theorem toRataDie_month_gt (y m d : Int) (h : ¬ m ≤ 2) :
    toRataDie ⟨y, m, d⟩ =
      y / 400 * 146097
      + (y - y / 400 * 400) * 365
      + (y - y / 400 * 400) / 4
      - (y - y / 400 * 400) / 100
      + ((153 * (m - 3) + 2) / 5 + d - 1) - 719468 := by
  simp only [toRataDie, civilEra, civilDoe, civilYoe, civilDoy, civilMp, civilYear]
  simp only [h, if_neg, if_false]
  ring

/-- Closed form for the day number of January 1. -/
theorem jan1_eq (y : Int) :
    jan1 y = 365 * (y - 1) + (y - 1) / 4 - (y - 1) / 100 + (y - 1) / 400 - 719162 := by
  have h := toRataDie_month_le y 1 1 (by omega)
  simp only [jan1]
  rw [h]
  omega

/-- Consecutive January firsts are 365 or 366 days apart. -/
theorem jan1_step (y : Int) : 365 ≤ jan1 (y + 1) - jan1 y ∧ jan1 (y + 1) - jan1 y ≤ 366 := by
  rw [jan1_eq, jan1_eq]
  omega

/-- The day number of January 1 is monotone in the year. -/
theorem jan1_mono (a b : Int) (h : a ≤ b) : jan1 a ≤ jan1 b :=
  Int.le_induction (P := fun n => jan1 a ≤ jan1 n) le_rfl
    (fun n _ ih => le_trans ih (by have := jan1_step n; omega)) b h

/-- January firsts of strictly later years are at least 365 days later. -/
theorem jan1_lt (a b : Int) (h : a < b) : jan1 a + 365 ≤ jan1 b := by
  have h1 := jan1_step a
  have h2 := jan1_mono (a + 1) b (by omega)
  omega

/-- The week-1 Sunday is a Sunday and falls within three days of January 1. -/
theorem week1Start_facts (y : Int) :
    dow (week1Start y) = 0 ∧
    jan1 y - 3 ≤ week1Start y ∧ week1Start y ≤ jan1 y + 3 := by
  simp only [week1Start, firstWednesday, dow]
  omega

/-- The interval between consecutive week-1 Sundays is exactly 52 or 53
whole weeks. -/
theorem week1Start_step (y : Int) :
    week1Start (y + 1) - week1Start y = 364 ∨ week1Start (y + 1) - week1Start y = 371 := by
  have h1 := week1Start_facts y
  have h2 := week1Start_facts (y + 1)
  have h3 := jan1_step y
  simp only [dow] at h1 h2
  omega

/-- The week-1 Sunday is strictly monotone in the epiyear. -/
theorem week1Start_lt (a b : Int) (h : a < b) : week1Start a < week1Start b := by
  have h1 := week1Start_facts a
  have h2 := week1Start_facts b
  have h3 := jan1_lt a b h
  omega

/-- Value of `weeksInYear` as week-1 Sundays: one year later is exactly
`7 * weeksInYear` days later. -/
theorem weeksInYear_mul (y : Int) :
    week1Start (y + 1) = week1Start y + 7 * weeksInYear y := by
  have h := week1Start_step y
  simp only [weeksInYear]
  omega

/-- Every epiyear has 52 or 53 weeks. -/
theorem weeksInYear_cases (y : Int) : weeksInYear y = 52 ∨ weeksInYear y = 53 := by
  have h := week1Start_step y
  simp only [weeksInYear]
  omega

/-- Converting a day number to a calendar date and back is the identity. -/
theorem toRataDie_fromRataDie (z : Int) : toRataDie (fromRataDie z) = z := by
  obtain ⟨hyoe0, hyoe1, hdoy0, hdoy1, hsum, hz⟩ := rd_components z
  have hmp : rdMp z = (5 * rdDoy z + 2) / 153 := rfl
  have hday : rdDay z = rdDoy z - (153 * rdMp z + 2) / 5 + 1 := rfl
  by_cases h10 : rdMp z < 10
  · have hmon : rdMonth z = rdMp z + 3 := if_pos h10
    have hgt : ¬ rdMonth z ≤ 2 := by omega
    have hfz : fromRataDie z = ⟨rdEra z * 400 + rdYoe z, rdMonth z, rdDay z⟩ := if_neg hgt
    rw [hfz, toRataDie_month_gt _ _ _ hgt, hmon]
    have he1 : (rdEra z * 400 + rdYoe z) / 400 = rdEra z := by omega
    rw [he1]
    omega
  · have hmon : rdMonth z = rdMp z - 9 := if_neg h10
    have hle : rdMonth z ≤ 2 := by omega
    have hfz : fromRataDie z = ⟨rdEra z * 400 + rdYoe z + 1, rdMonth z, rdDay z⟩ := if_pos hle
    rw [hfz, toRataDie_month_le _ _ _ hle, hmon]
    have he1 : (rdEra z * 400 + rdYoe z + 1 - 1) / 400 = rdEra z := by omega
    rw [he1]
    omega

/-- The calendar year produced by `fromRataDie` is the one whose January 1
window contains the day. -/
theorem fromRataDie_year (z : Int) :
    jan1 ((fromRataDie z).year) ≤ z ∧ z < jan1 ((fromRataDie z).year + 1) := by
  obtain ⟨hyoe0, hyoe1, hdoy0, hdoy1, hsum, hz⟩ := rd_components z
  have hmp : rdMp z = (5 * rdDoy z + 2) / 153 := rfl
  by_cases h10 : rdMp z < 10
  · have hmon : rdMonth z = rdMp z + 3 := if_pos h10
    have hgt : ¬ rdMonth z ≤ 2 := by omega
    have hfz : fromRataDie z = ⟨rdEra z * 400 + rdYoe z, rdMonth z, rdDay z⟩ := if_neg hgt
    rw [hfz]
    dsimp only
    rw [jan1_eq, jan1_eq]
    have h1a : (rdEra z * 400 + rdYoe z - 1) / 4 = 100 * rdEra z + (rdYoe z - 1) / 4 := by
      omega
    have h1b : (rdEra z * 400 + rdYoe z - 1) / 100 = 4 * rdEra z + (rdYoe z - 1) / 100 := by
      omega
    have h1c : (rdEra z * 400 + rdYoe z - 1) / 400 = rdEra z + (rdYoe z - 1) / 400 := by
      omega
    have h2a : (rdEra z * 400 + rdYoe z + 1 - 1) / 4 = 100 * rdEra z + rdYoe z / 4 := by
      omega
    have h2b : (rdEra z * 400 + rdYoe z + 1 - 1) / 100 = 4 * rdEra z + rdYoe z / 100 := by
      omega
    have h2c : (rdEra z * 400 + rdYoe z + 1 - 1) / 400 = rdEra z + rdYoe z / 400 := by
      omega
    have h2d : rdYoe z / 400 = 0 := by omega
    omega
  · have hmon : rdMonth z = rdMp z - 9 := if_neg h10
    have hle : rdMonth z ≤ 2 := by omega
    have hfz : fromRataDie z = ⟨rdEra z * 400 + rdYoe z + 1, rdMonth z, rdDay z⟩ := if_pos hle
    rw [hfz]
    dsimp only
    rw [jan1_eq, jan1_eq]
    have h2a : (rdEra z * 400 + rdYoe z + 1 - 1) / 4 = 100 * rdEra z + rdYoe z / 4 := by
      omega
    have h2b : (rdEra z * 400 + rdYoe z + 1 - 1) / 100 = 4 * rdEra z + rdYoe z / 100 := by
      omega
    have h2c : (rdEra z * 400 + rdYoe z + 1 - 1) / 400 = rdEra z + rdYoe z / 400 := by
      omega
    have h2d : rdYoe z / 400 = 0 := by omega
    have h3a : (rdEra z * 400 + rdYoe z + 1 + 1 - 1) / 4
        = 100 * rdEra z + (rdYoe z + 1) / 4 := by omega
    have h3b : (rdEra z * 400 + rdYoe z + 1 + 1 - 1) / 100
        = 4 * rdEra z + (rdYoe z + 1) / 100 := by omega
    have h3c : (rdEra z * 400 + rdYoe z + 1 + 1 - 1) / 400
        = rdEra z + (rdYoe z + 1) / 400 := by omega
    omega

/-- The week-1 Sunday is monotone in the epiyear. -/
theorem week1Start_mono (a b : Int) (h : a ≤ b) : week1Start a ≤ week1Start b := by
  rcases lt_or_eq_of_le h with h1 | h1
  · exact le_of_lt (week1Start_lt a b h1)
  · rw [h1]

/-- A Sunday belongs to the weeks of exactly one epiyear. -/
theorem epiyear_unique (a b s : Int)
    (ha1 : week1Start a ≤ s) (ha2 : s < week1Start (a + 1))
    (hb1 : week1Start b ≤ s) (hb2 : s < week1Start (b + 1)) : a = b := by
  by_contra hne
  rcases lt_or_gt_of_ne hne with h | h
  · have := week1Start_mono (a + 1) b (by omega)
    omega
  · have := week1Start_mono (b + 1) a (by omega)
    omega

/-- Characterization of `dateToEpiweek` on an arbitrary day number: the
returned epiweek is valid, and its Sunday is the Sunday on or before the
day, located within the returned epiyear's weeks. -/
theorem dateToEpiweek_spec (z : Int) :
    week1Start ((dateToEpiweek (fromRataDie z)).epiyear) ≤ z - dow z ∧
    z - dow z < week1Start ((dateToEpiweek (fromRataDie z)).epiyear + 1) ∧
    z - dow z = week1Start ((dateToEpiweek (fromRataDie z)).epiyear)
      + ((dateToEpiweek (fromRataDie z)).week - 1) * 7 ∧
    1 ≤ (dateToEpiweek (fromRataDie z)).week ∧
    (dateToEpiweek (fromRataDie z)).week
      ≤ weeksInYear ((dateToEpiweek (fromRataDie z)).epiyear) := by
  have hz := toRataDie_fromRataDie z
  have hyr := fromRataDie_year z
  simp only [dateToEpiweek, hz]
  set Y := (fromRataDie z).year with hY
  have hd : dow z = (z + 4) % 7 := rfl
  have hw0 := week1Start_facts (Y - 1)
  have hw1 := week1Start_facts Y
  have hw2 := week1Start_facts (Y + 1)
  have hw3 := week1Start_facts (Y + 2)
  simp only [dow] at hw0 hw1 hw2 hw3
  have hj0 := jan1_lt (Y - 1) Y (by omega)
  have hj2 := jan1_lt (Y + 1) (Y + 2) (by omega)
  have hm0 : week1Start (Y - 1 + 1) = week1Start (Y - 1) + 7 * weeksInYear (Y - 1) :=
    weeksInYear_mul (Y - 1)
  have hm0e : week1Start (Y - 1 + 1) = week1Start Y := by
    rw [show Y - 1 + 1 = Y from by omega]
  have hm1 : week1Start (Y + 1) = week1Start Y + 7 * weeksInYear Y := weeksInYear_mul Y
  have hm2 : week1Start (Y + 1 + 1) = week1Start (Y + 1) + 7 * weeksInYear (Y + 1) :=
    weeksInYear_mul (Y + 1)
  have hm2e : week1Start (Y + 1 + 1) = week1Start (Y + 2) := by
    rw [show Y + 1 + 1 = Y + 2 from by omega]
  split_ifs with h1 h2
  · dsimp only
    rw [show Y - 1 + 1 = Y from by omega]
    omega
  · dsimp only
    rw [show Y + 1 + 1 = Y + 2 from by omega]
    omega
  · dsimp only
    omega

/-- Each of the seven days of a valid epiweek maps back to that epiweek
under `dateToEpiweek`. -/
theorem dateToEpiweek_day (y w k : Int) (hw1 : 1 ≤ w) (hw2 : w ≤ weeksInYear y)
    (hk1 : 0 ≤ k) (hk2 : k ≤ 6) :
    dateToEpiweek (fromRataDie (week1Start y + (w - 1) * 7 + k)) = ⟨y, w⟩ := by
  have hA := dateToEpiweek_spec (week1Start y + (w - 1) * 7 + k)
  rcases hcd : dateToEpiweek (fromRataDie (week1Start y + (w - 1) * 7 + k)) with ⟨a, b⟩
  rw [hcd] at hA
  dsimp only at hA
  obtain ⟨h1, h2, h3, h4, h5⟩ := hA
  have hwf := week1Start_facts y
  simp only [dow] at hwf h1 h2 h3
  have hmul := weeksInYear_mul y
  -- the Sunday of the selected day is the epiweek's own Sunday
  have hsun : week1Start y + (w - 1) * 7 + k
      - (week1Start y + (w - 1) * 7 + k + 4) % 7 = week1Start y + (w - 1) * 7 := by
    omega
  rw [hsun] at h1 h2 h3
  have hy : a = y := by
    apply epiyear_unique a y (week1Start y + (w - 1) * 7) h1 h2
    · omega
    · rw [hmul]; omega
  subst hy
  have hb : b = w := by omega
  subst hb
  rfl

/-- C1 (round-trip): for every valid epiweek, the start date of its date
range maps back to it under `dateToEpiweek`, and so does each of the seven
days from the start date through the end date (start date plus 6 days). -/
theorem roundtrip_of_epiweekToDateRange (y w : Int)
    (hw1 : 1 ≤ w) (hw2 : w ≤ weeksInYear y) (s e : CalendarDate)
    (hr : epiweekToDateRange ⟨y, w⟩ = Except.ok (s, e)) :
    dateToEpiweek s = ⟨y, w⟩ ∧
    (∀ k : Int, 0 ≤ k → k ≤ 6 → dateToEpiweek (fromRataDie (toRataDie s + k)) = ⟨y, w⟩) ∧
    toRataDie e = toRataDie s + 6 := by
  rw [epiweekToDateRange, if_pos (by exact ⟨hw1, hw2⟩)] at hr
  injection hr with hr
  injection hr with hrs hre
  have hs : s = fromRataDie (epiweekStartRD ⟨y, w⟩) := hrs.symm
  have he : e = fromRataDie (epiweekStartRD ⟨y, w⟩ + 6) := hre.symm
  have hsrd : toRataDie s = epiweekStartRD ⟨y, w⟩ := by
    rw [hs]; exact toRataDie_fromRataDie _
  have herd : toRataDie e = epiweekStartRD ⟨y, w⟩ + 6 := by
    rw [he]; exact toRataDie_fromRataDie _
  refine ⟨?_, ?_, by omega⟩
  · have h0 := dateToEpiweek_day y w 0 hw1 hw2 (by omega) (by omega)
    rw [hs]
    rw [show epiweekStartRD ⟨y, w⟩ = week1Start y + (w - 1) * 7 + 0 from by
      simp [epiweekStartRD]]
    exact h0
  · intro k hk1 hk2
    have hk := dateToEpiweek_day y w k hw1 hw2 hk1 hk2
    rw [hsrd]
    rw [show epiweekStartRD ⟨y, w⟩ + k = week1Start y + (w - 1) * 7 + k from by
      simp [epiweekStartRD]]
    exact hk

/-- Witness for the round-trip claim at epiweek (2015, 52), whose range is
2015-12-27 through 2016-01-02. -/
theorem roundtrip_of_epiweekToDateRange_witness :
    dateToEpiweek ⟨2015, 12, 27⟩ = ⟨2015, 52⟩ :=
  (roundtrip_of_epiweekToDateRange 2015 52 (by decide) (by decide)
    ⟨2015, 12, 27⟩ ⟨2016, 1, 2⟩ rfl).1

/-- C2 (year-count stability): for every epiyear, `weeksInYear` is exactly
52 or exactly 53 — in particular over 2000 to 2100. -/
theorem weeksInYear_52_or_53 (y : Int) : weeksInYear y = 52 ∨ weeksInYear y = 53 := by
  have h := week1Start_step y
  simp only [weeksInYear]
  omega

/-- C3 counterexample: on 2016-01-01 the engine does not return epiweek
(2015, 53): 2015 has only 52 epiweeks under the CDC week-1 rule. -/
theorem dateToEpiweek_20160101_ne : dateToEpiweek ⟨2016, 1, 1⟩ ≠ ⟨2015, 53⟩ := by
  decide

/-- C3 amended: `dateToEpiweek` on 2016-01-01 returns epiweek (2015, 52),
the last week of epiyear 2015. -/
theorem dateToEpiweek_20160101 : dateToEpiweek ⟨2016, 1, 1⟩ = ⟨2015, 52⟩ := by decide

/-- C4 counterexample: epiweek (2015, 53) is invalid — epiyear 2015 has 52
weeks — so `epiweekToDateRange` fails on it instead of returning any end
date. -/
theorem epiweekToDateRange_2015w53_error :
    epiweekToDateRange ⟨2015, 53⟩ = Except.error EpiweekError.invalidEpiweek ∧
    weeksInYear 2015 = 52 := ⟨rfl, rfl⟩

/-- C4 amended: the last epiweek of 2015 is week 52, and its date range ends
on 2016-01-02 (starting 2015-12-27). -/
theorem epiweekToDateRange_2015_last_week :
    epiweekToDateRange ⟨2015, 52⟩ =
      Except.ok (⟨2015, 12, 27⟩, ⟨2016, 1, 2⟩) := rfl

/-- C5 (contiguity): for consecutive valid weeks of the same epiyear, the
day after the first week's end date is the second week's start date. -/
theorem epiweek_contiguity (y w : Int) (hw1 : 1 ≤ w) (hw2 : w < weeksInYear y)
    (s1 e1 s2 e2 : CalendarDate)
    (h1 : epiweekToDateRange ⟨y, w⟩ = Except.ok (s1, e1))
    (h2 : epiweekToDateRange ⟨y, w + 1⟩ = Except.ok (s2, e2)) :
    fromRataDie (toRataDie e1 + 1) = s2 ∧ toRataDie s2 = toRataDie e1 + 1 := by
  have hc1 : 1 ≤ w ∧ w ≤ weeksInYear y := ⟨hw1, by omega⟩
  have hc2 : 1 ≤ w + 1 ∧ w + 1 ≤ weeksInYear y := ⟨by omega, by omega⟩
  simp only [epiweekToDateRange] at h1 h2
  rw [if_pos hc1] at h1
  rw [if_pos hc2] at h2
  injection h1 with h1
  injection h1 with hs1 he1
  injection h2 with h2
  injection h2 with hs2 he2
  have he1rd : toRataDie e1 = epiweekStartRD ⟨y, w⟩ + 6 := by
    rw [← he1]; exact toRataDie_fromRataDie _
  have hstep : epiweekStartRD ⟨y, w + 1⟩ = epiweekStartRD ⟨y, w⟩ + 6 + 1 := by
    simp only [epiweekStartRD]
    ring
  constructor
  · rw [he1rd, ← hs2, hstep]
  · rw [← hs2, hstep, toRataDie_fromRataDie, he1rd]

/-- Witness for the contiguity claim: week 51 of 2015 ends on 2015-12-26 and
week 52 starts on 2015-12-27. -/
theorem epiweek_contiguity_witness :
    fromRataDie (toRataDie ⟨2015, 12, 26⟩ + 1) = (⟨2015, 12, 27⟩ : CalendarDate) ∧
    toRataDie ⟨2015, 12, 27⟩ = toRataDie ⟨2015, 12, 26⟩ + 1 :=
  epiweek_contiguity 2015 51 (by decide) (by decide)
    ⟨2015, 12, 20⟩ ⟨2015, 12, 26⟩ ⟨2015, 12, 27⟩ ⟨2016, 1, 2⟩ rfl rfl

/-- C7 (error handling): `epiweekToDateRange` fails with `InvalidEpiweek`
exactly when the week lies outside `[1, weeksInYear epiyear]`, and returns
the start/end pair of dates exactly when the week lies inside it. -/
theorem epiweekToDateRange_invalid_iff (ew : EpiWeek) :
    (epiweekToDateRange ew = Except.error EpiweekError.invalidEpiweek ↔
      ¬ (1 ≤ ew.week ∧ ew.week ≤ weeksInYear ew.epiyear)) ∧
    (epiweekToDateRange ew =
        Except.ok (fromRataDie (epiweekStartRD ew), fromRataDie (epiweekStartRD ew + 6)) ↔
      (1 ≤ ew.week ∧ ew.week ≤ weeksInYear ew.epiyear)) := by
  rw [epiweekToDateRange]
  split_ifs with h
  · simp [h]
  · simp [h]

/-- C9 (exit status): `main` exits with status 0 exactly when all three
comparison results passed, and with status 1 exactly when some comparison
did not pass. -/
theorem mainExitCode_zero_iff (r1 r2 r3 : ComparisonResult) :
    (mainExitCode [r1, r2, r3] = 0 ↔ (r1.passed ∧ r2.passed ∧ r3.passed)) ∧
    (mainExitCode [r1, r2, r3] = 1 ↔ ¬ (r1.passed ∧ r2.passed ∧ r3.passed)) := by
  simp only [mainExitCode, allPassed, List.foldl]
  cases hp1 : r1.passed <;> cases hp2 : r2.passed <;> cases hp3 : r3.passed <;>
    simp [hp1, hp2, hp3]

/-- C10 (silent default): when the loaded week-count table has no entry for
a year of the checked range, `compare_epiweek_to_date` assumes 52 weeks and
looks the end date up under the 52-week key, with no error reported. -/
theorem missing_weeksInYear_defaults_52 (ts : TsResults) (y : Int)
    (hy1 : 2015 ≤ y) (hy2 : y ≤ 2030)
    (h : ts.weeksInYear (toString y) = none) :
    nweeksUsed ts y = 52 ∧ endDateKey ts y = toString y ++ "52_end" ∧
    tsEndLookup ts y = ts.epiweekToDate (toString y ++ "52_end") := by
  have h1 : nweeksUsed ts y = 52 := by simp [nweeksUsed, h]
  have h2 : endDateKey ts y = toString y ++ "52_end" := by
    rw [endDateKey, h1]
    rfl
  have h3 : tsEndLookup ts y = ts.epiweekToDate (toString y ++ "52_end") := by
    rw [tsEndLookup, h2]
  exact ⟨h1, h2, h3⟩

/-- Witness for the silent 52-week default on an empty table at year 2020. -/
theorem missing_weeksInYear_defaults_52_witness :
    nweeksUsed tsEmpty 2020 = 52 ∧
    endDateKey tsEmpty 2020 = toString (2020 : Int) ++ "52_end" ∧
    tsEndLookup tsEmpty 2020 = tsEmpty.epiweekToDate (toString (2020 : Int) ++ "52_end") :=
  missing_weeksInYear_defaults_52 tsEmpty 2020 (by decide) (by decide) rfl

/-- C6 (range algorithm): for a valid epiweek, the returned start date is
the week-1 Sunday advanced by `(week - 1) * 7` days and the end date is the
start date plus six days; the week-1 Sunday is indeed a Sunday, its week
holds at least four days of the calendar year, and it starts the week
containing the year's first Wednesday. -/
theorem epiweekToDateRange_start_spec (y w : Int)
    (hw1 : 1 ≤ w) (hw2 : w ≤ weeksInYear y) :
    epiweekToDateRange ⟨y, w⟩ =
      Except.ok (fromRataDie (week1Start y + (w - 1) * 7),
        fromRataDie (week1Start y + (w - 1) * 7 + 6)) ∧
    dow (week1Start y) = 0 ∧
    4 ≤ ((Finset.Icc (week1Start y) (week1Start y + 6)).filter
      (fun d => jan1 y ≤ d ∧ d < jan1 (y + 1))).card ∧
    week1Start y ≤ firstWednesday y ∧ firstWednesday y ≤ week1Start y + 6 ∧
    dow (firstWednesday y) = 3 ∧
    jan1 y ≤ firstWednesday y ∧ firstWednesday y < jan1 y + 7 ∧
    toRataDie (fromRataDie (week1Start y + (w - 1) * 7 + 6)) =
      toRataDie (fromRataDie (week1Start y + (w - 1) * 7)) + 6 := by
  have hwf := week1Start_facts y
  have hstep := jan1_step y
  refine ⟨?_, hwf.1, ?_, ?_, ?_, ?_, ?_, ?_, ?_⟩
  · simp only [epiweekToDateRange, epiweekStartRD]
    rw [if_pos ⟨hw1, hw2⟩]
  · by_cases hc : jan1 y ≤ week1Start y
    · have hsub : Finset.Icc (week1Start y) (week1Start y + 3) ⊆
          (Finset.Icc (week1Start y) (week1Start y + 6)).filter
            (fun d => jan1 y ≤ d ∧ d < jan1 (y + 1)) := by
        intro d hd
        simp only [Finset.mem_Icc] at hd
        simp only [Finset.mem_filter, Finset.mem_Icc]
        omega
      have hcard := Finset.card_le_card hsub
      have h4 : (Finset.Icc (week1Start y) (week1Start y + 3)).card = 4 := by
        rw [Int.card_Icc]
        omega
      omega
    · have hsub : Finset.Icc (jan1 y) (jan1 y + 3) ⊆
          (Finset.Icc (week1Start y) (week1Start y + 6)).filter
            (fun d => jan1 y ≤ d ∧ d < jan1 (y + 1)) := by
        intro d hd
        simp only [Finset.mem_Icc] at hd
        simp only [Finset.mem_filter, Finset.mem_Icc]
        omega
      have hcard := Finset.card_le_card hsub
      have h4 : (Finset.Icc (jan1 y) (jan1 y + 3)).card = 4 := by
        rw [Int.card_Icc]
        omega
      omega
  · simp only [week1Start]
    omega
  · simp only [week1Start, firstWednesday, dow]
    omega
  · simp only [week1Start, firstWednesday, dow]
    omega
  · simp only [firstWednesday, dow]
    omega
  · simp only [firstWednesday, dow]
    omega
  · rw [toRataDie_fromRataDie, toRataDie_fromRataDie]

/-- Witness for the range-algorithm claim at epiweek (2015, 1): its week-1
Sunday is a Sunday. -/
theorem epiweekToDateRange_start_spec_witness : dow (week1Start 2015) = 0 :=
  (epiweekToDateRange_start_spec 2015 1 (by decide) (by decide)).2.1

/-- Attaching a fixed epiyear to week numbers is injective. -/
theorem epiweek_mk_injective (y : Int) :
    Function.Injective (fun w : Int => (⟨y, w⟩ : EpiWeek)) := by
  intro a b h
  simpa using congrArg EpiWeek.week h

/-- C8 (coverage): over all calendar dates of calendar year `y`, the
distinct epiweeks labelled with epiyear `y` number exactly
`weeksInYear y`. -/
theorem epiweek_coverage_card (y : Int) :
    (epiweeksOfYear y).card = (weeksInYear y).toNat := by
  have hwfy := week1Start_facts y
  have hwfy1 := week1Start_facts (y + 1)
  have hmul := weeksInYear_mul y
  have hstep := jan1_step y
  have hset : epiweeksOfYear y = (Finset.Icc 1 (weeksInYear y)).image
      (fun w => (⟨y, w⟩ : EpiWeek)) := by
    ext ew
    simp only [epiweeksOfYear, Finset.mem_filter, Finset.mem_image, Finset.mem_Icc]
    constructor
    · rintro ⟨⟨z, hz, hew⟩, hyr⟩
      have hs := dateToEpiweek_spec z
      rw [hew] at hs
      refine ⟨ew.week, ⟨hs.2.2.2.1, ?_⟩, ?_⟩
      · have h5 := hs.2.2.2.2
        rw [hyr] at h5
        exact h5
      · rcases ew with ⟨a, b⟩
        dsimp only at hyr
        rw [hyr]
    · rintro ⟨w, ⟨hw1, hw2⟩, hew⟩
      by_cases hcase : jan1 y ≤ week1Start y + (w - 1) * 7
      · refine ⟨⟨week1Start y + (w - 1) * 7, ⟨hcase, by omega⟩, ?_⟩, ?_⟩
        · have hd := dateToEpiweek_day y w 0 hw1 hw2 (by omega) (by omega)
          rw [add_zero] at hd
          rw [← hew]
          exact hd
        · rw [← hew]
      · refine ⟨⟨jan1 y, ⟨le_refl _, by omega⟩, ?_⟩, ?_⟩
        · have hd := dateToEpiweek_day y w (jan1 y - (week1Start y + (w - 1) * 7))
            hw1 hw2 (by omega) (by omega)
          rw [show week1Start y + (w - 1) * 7 + (jan1 y - (week1Start y + (w - 1) * 7))
              = jan1 y from by ring] at hd
          rw [← hew]
          exact hd
        · rw [← hew]
  rw [hset, Finset.card_image_of_injective _ (epiweek_mk_injective y), Int.card_Icc]
  omega
